import Mathlib

set_option maxRecDepth 10000

/-
  Shallow embedding of the artnet-rescaler program (src/src/main.rs).

  Modelling decisions, applied uniformly:
  * Machine integers (u8, u16, usize) are modelled as Nat.
  * f64 values are modelled as exact rationals (every finite f64 is a dyadic
    rational). The f64 product of the rescale path is modelled at two levels
    of fidelity: rescaleByte idealizes it as the exact rational product,
    which coincides with the program wherever the product is exactly
    representable (true at every input the concrete run of C1 touches) and
    suffices for properties that are insensitive to rounding (C10);
    roundF64 models the IEEE round-to-nearest-even of the product at 53
    significant bits on the positive normal range (which covers every value
    the rescale path can produce: each is 0 or lies in [1/127, 255], far from
    underflow and overflow), and rescaleByteF64 builds the fully faithful
    byte operation from it. The Rust cast "as u8" truncates toward zero and
    saturates, modelled as Int.toNat of the floor, capped at 255.
  * The external UnipolarFloat type (crate "number") keeps its value clamped to
    the unit interval; its constructor is modelled as clamping.
  * Rust slice reads that can return None (input.get(range)) return Option;
    slice writes that can panic (buffer[range].copy_from_slice) return Option
    with none standing for the panic.
  * The wire codec (artnet_protocol encode/decode) is an external collaborator:
    messages are modelled at the decoded level (ArtCommand), and an emitted
    datagram is modelled as the message value it encodes together with its
    destination.
  * Log statements have no observable effect and are dropped.
-/

namespace ArtnetRescaler

/-- The well-known Art-Net port (const PORT: u16 = 6454). -/
def PORT : Nat := 6454

/-- IPv4 address, four octets (std::net::Ipv4Addr). -/
structure Ipv4Addr where
  a : Nat
  b : Nat
  c : Nat
  d : Nat
  deriving DecidableEq, Repr

/-- Socket address: IP plus port (std::net::SocketAddr). -/
structure SockAddr where
  ip : Ipv4Addr
  port : Nat
  deriving DecidableEq, Repr

/-- A universe identifier (artnet_protocol::PortAddress). -/
abbrev PortAddress := Nat

/-- An Art-Net Output message: universe identity plus payload bytes
(artnet_protocol::Output, restricted to the fields the program touches). -/
structure Output where
  port_address : PortAddress
  data : List Nat
  deriving DecidableEq, Repr

/-- struct Remapping { start: usize, length: usize, new_start: usize } -/
structure Remapping where
  start : Nat
  length : Nat
  new_start : Nat
  deriving DecidableEq, Repr

/-- struct UniverseActions { rescale: bool, remap: Vec<Remapping>, destination: Ipv4Addr } -/
structure UniverseActions where
  rescale : Bool
  remap : List Remapping
  destination : Ipv4Addr

/-- The byte operation of rescale_universe:
  *val = ((*val as f64) * scale.val()) as u8.
This is the idealized model: the f64 product is taken as the exact rational
product, with no IEEE rounding step (see rescaleByteF64 for the faithful
model that rounds the product first). The "as u8" cast truncates toward zero
(for a nonnegative value this is the floor; Int.toNat sends the
negative-product case to 0 exactly as the saturating cast does) and
saturates at 255. -/
def rescaleByte (scale : ℚ) (v : Nat) : Nat :=
  min (Int.toNat ⌊(v : ℚ) * scale⌋) 255

/-- fn rescale_universe(scale: UnipolarFloat, output: &mut Output):
each byte of the payload is replaced by its rescaled value (idealized product,
see rescale_universeF64 for the rounding-faithful version). -/
def rescale_universe (scale : ℚ) (data : List Nat) : List Nat :=
  data.map (rescaleByte scale)

/-- IEEE round-to-nearest-even at 53 significant bits for a positive rational,
with unbounded exponent: the binade exponent E is chosen so the scaled
significand u lies in the binade of 52-bit fractions, u is rounded to an
integer with ties to even, and the result is rescaled. On the positive normal,
non-overflowing f64 range this is exactly the f64 rounding function; the
rescale path only produces such values. -/
def roundPos (q : ℚ) : ℚ :=
  let E : ℤ := Int.log 2 q
  let u : ℚ := q * 2 ^ (52 - E)
  let n : ℤ :=
    if u - ⌊u⌋ < 1/2 then ⌊u⌋
    else if 1/2 < u - ⌊u⌋ then ⌊u⌋ + 1
    else if ⌊u⌋ % 2 = 0 then ⌊u⌋ else ⌊u⌋ + 1
  (n : ℚ) * 2 ^ (E - 52)

/-- Rounding of an f64 arithmetic result, restricted to the nonnegative
range the rescale path uses (byte values times a clamped unit-interval
scale): zero is exact and a positive value is rounded to nearest-even. -/
def roundF64 (q : ℚ) : ℚ := if q ≤ 0 then 0 else roundPos q

/-- The faithful byte operation of rescale_universe including the IEEE
rounding of the f64 product: the program computes the correctly rounded
product fl((v as f64) * scale) and then truncates toward zero with
saturation ("as u8"). -/
def rescaleByteF64 (scale : ℚ) (v : Nat) : Nat :=
  min (Int.toNat ⌊roundF64 ((v : ℚ) * scale)⌋) 255

/-- fn rescale_universe with the rounding-faithful byte operation. -/
def rescale_universeF64 (scale : ℚ) (data : List Nat) : List Nat :=
  data.map (rescaleByteF64 scale)

/-- Rust input.get(start..start+len): some slice iff the whole range lies
inside the input, none otherwise. -/
def sliceGet (input : List Nat) (start len : Nat) : Option (List Nat) :=
  if start + len ≤ input.length then some ((input.drop start).take len) else none

/-- Rust buffer[start..start+vals.len()].copy_from_slice(vals): succeeds iff
the destination range lies inside the buffer, none models the panic. -/
def writeSlice (buffer : List Nat) (start : Nat) (vals : List Nat) : Option (List Nat) :=
  if start + vals.length ≤ buffer.length then
    some (buffer.take start ++ vals ++ buffer.drop (start + vals.length))
  else none

/-- One iteration of the remap loop body: a rule whose source range does not
fit in the input is skipped (the warn branch, buffer unchanged); otherwise the
source bytes are written at new_start, which can panic (none). -/
def remapStep (input : List Nat) (buffer : List Nat) (r : Remapping) : Option (List Nat) :=
  match sliceGet input r.start r.length with
  | none => some buffer
  | some vals => writeSlice buffer r.new_start vals

/-- The for-loop of remap_universe over the rule list. -/
def remapGo (input : List Nat) (buffer : List Nat) : List Remapping → Option (List Nat)
  | [] => some buffer
  | r :: rest =>
    match remapStep input buffer r with
    | none => none
    | some buffer2 => remapGo input buffer2 rest

/-- fn remap_universe(remappings: &[Remapping], output: &mut Output):
starts from vec![0u8; 512] and applies the rules in order; the result replaces
the payload. none models a panic on a destination range beyond 512. -/
def remap_universe (remappings : List Remapping) (input : List Nat) : Option (List Nat) :=
  remapGo input (List.replicate 512 0) remappings

/-- The dispatch-actor message type (enum Action). -/
inductive Action where
  | Scale (val : ℚ)
  | Packet (output : Output)
  | PollResp (addr : SockAddr)
  deriving DecidableEq, Repr

/-- The decoded Art-Net poll reply, restricted to the fields the program sets
explicitly; the remaining capability fields are protocol defaults filled by the
external codec and carry no information. -/
structure PollReply where
  address : Ipv4Addr
  port : Nat
  status_1 : Nat
  esta_code : Nat
  short_name : List Nat
  long_name : List Nat
  node_report : List Nat
  deriving DecidableEq, Repr

/-- ASCII bytes of a string (str::as_bytes for ASCII content). -/
def strBytes (s : String) : List Nat := s.data.map Char.toNat

/-- fn poll_response(): an 18-byte name buffer, zero-filled, whose first 8
bytes are overwritten with "rescaler", wrapped in a PollReply. -/
def poll_response : PollReply :=
  { address := ⟨1, 1, 1, 1⟩
    port := PORT
    status_1 := 0
    esta_code := 0
    short_name := strBytes ("rescaler") ++ (List.replicate 18 0).drop 8
    long_name := List.replicate 64 0
    node_report := List.replicate 64 0 }

/-- An observable outbound effect of the dispatch loop: either the poll-reply
datagram sent to an address, or an Output frame sent to a destination/port. -/
inductive Effect where
  | PollReplySend (addr : SockAddr) (reply : PollReply)
  | ArtnetSend (dest : Ipv4Addr) (port : Nat) (output : Output)
  deriving DecidableEq, Repr

/-- The mutable state owned by the dispatch loop: the current scale
(let mut scale = UnipolarFloat::ONE). -/
structure DispatchState where
  scale : ℚ
  deriving DecidableEq, Repr

/-- One iteration of the dispatch loop in run_rescale, acting on one message.
The action table (actions) is the immutable per-universe configuration.
Returns none only for the panic inside remap_universe; otherwise the new state
and the list of emitted datagrams. -/
def step (actions : PortAddress → Option UniverseActions)
    (s : DispatchState) : Action → Option (DispatchState × List Effect)
  | .PollResp addr => some (s, [.PollReplySend addr poll_response])
  | .Scale val => some ({ scale := val }, [])
  | .Packet output =>
    match actions output.port_address with
    | none => some (s, [])
    | some action =>
      let data1 := if action.rescale then rescale_universe s.scale output.data else output.data
      match (if action.remap.isEmpty then some data1 else remap_universe action.remap data1) with
      | none => none
      | some data2 =>
        some (s, [.ArtnetSend action.destination PORT { output with data := data2 }])

/-- The dispatch loop run over a finite message sequence, collecting all
emitted datagrams in order. -/
def runDispatch (actions : PortAddress → Option UniverseActions)
    (s : DispatchState) : List Action → Option (DispatchState × List Effect)
  | [] => some (s, [])
  | a :: rest =>
    match step actions s a with
    | none => none
    | some (s1, effs) =>
      match runDispatch actions s1 rest with
      | none => none
      | some (s2, effs2) => some (s2, effs ++ effs2)

/-- The decoded Art-Net message kinds the receiver distinguishes
(artnet_protocol::ArtCommand at the granularity the program uses). -/
inductive ArtCommand where
  | Poll : ArtCommand
  | Output : ArtnetRescaler.Output → ArtCommand
  | PollReply : ArtnetRescaler.PollReply → ArtCommand
  | Other : ArtCommand

/-- addr.set_port(PORT) -/
def set_port (addr : SockAddr) (p : Nat) : SockAddr := { addr with port := p }

/-- fn receive_artnet, after the external decode: a poll becomes a PollResp
action carrying the source address with port rewritten to PORT; an output
frame becomes a Packet action; everything else produces no action. -/
def receive_artnet (addr : SockAddr) : ArtCommand → Option Action
  | .Poll => some (.PollResp (set_port addr PORT))
  | .Output output => some (.Packet output)
  | _ => none

/-- struct MidiControl { channel: u8, control: u8 } -/
structure MidiControl where
  channel : Nat
  control : Nat
  deriving DecidableEq, Repr

/-- enum EventType -/
inductive EventType where
  | NoteOn
  | NoteOff
  | ControlChange
  deriving DecidableEq, Repr

/-- The match on msg[0] >> 4 in the midi callback: 8, 9 and 11 are the
implemented event kinds, anything else is logged and ignored. -/
def decodeEventType : Nat → Option EventType
  | 8 => some .NoteOff
  | 9 => some .NoteOn
  | 11 => some .ControlChange
  | _ => none

/-- fn unipolar_from_midi: UnipolarFloat::new(val as f64 / 127.). The external
UnipolarFloat constructor clamps to the unit interval; a nat over 127 is
clamped to 1 (the lower clamp is vacuous for a Nat input). -/
def unipolar_from_midi (val : Nat) : ℚ := min ((val : ℚ) / 127) 1

/-- Where the midi callback routes a decoded event: into the dispatch queue or
into the OSC forwarding queue. -/
inductive MidiRoute where
  | dispatch (a : Action)
  | oscForward (control : MidiControl) (val : Nat)
  deriving Repr

/-- The midi input callback installed by Input::new, on a 3-byte message:
decode the event type from the high nibble of byte 0; ignore everything but
control-change; build the control identifier from the low nibble of byte 0 and
byte 1; route to the dispatch queue as a Scale action when it matches the
configured rescale control, to the OSC queue otherwise. -/
def handle_midi (rescale_control : MidiControl) (b0 b1 b2 : Nat) : Option MidiRoute :=
  match decodeEventType (b0 >>> 4) with
  | none => none
  | some event_type =>
    if event_type ≠ EventType.ControlChange then none
    else
      let control : MidiControl := { channel := b0 &&& 15, control := b1 }
      let val := b2
      if control = rescale_control then
        some (.dispatch (.Scale (unipolar_from_midi val)))
      else
        some (.oscForward control val)

/- Helper lemmas about the embedded operations. -/

/-- Truncating a product with a factor at most 1 never exceeds the input byte. -/
theorem toNat_floor_le (s : ℚ) (v : Nat) (h1 : s ≤ 1) :
    Int.toNat ⌊(v : ℚ) * s⌋ ≤ v := by
  have hfloor : ⌊(v : ℚ) * s⌋ ≤ (v : ℤ) := by
    calc ⌊(v : ℚ) * s⌋ ≤ ⌊((v : ℕ) : ℚ)⌋ :=
          Int.floor_le_floor (mul_le_of_le_one_right (Nat.cast_nonneg v) h1)
      _ = (v : ℤ) := Int.floor_natCast v
  exact Int.toNat_le.mpr hfloor

/-- Rescaling with a factor at most 1 is pointwise non-increasing. -/
theorem rescaleByte_le (s : ℚ) (v : Nat) (h1 : s ≤ 1) : rescaleByte s v ≤ v :=
  le_trans (min_le_left _ _) (toNat_floor_le s v h1)

/-- Concrete evaluation, in the inverse normal form produced by simp. -/
theorem rescaleByte_inv_two_200 : rescaleByte 2⁻¹ 200 = 100 := by
  norm_num [rescaleByte]
  decide

/-- Concrete evaluation: byte 200 at scale 1 is unchanged. -/
theorem rescaleByte_one_200 : rescaleByte 1 200 = 200 := by
  norm_num [rescaleByte]
  decide

/-- Characterization of the binade exponent by its two bounding powers. -/
theorem log2_eq_of {r : ℚ} {e : ℤ} (h0 : 0 < r) (h1 : (2:ℚ) ^ e ≤ r)
    (h2 : r < (2:ℚ) ^ (e + 1)) : Int.log 2 r = e := by
  have ha : e ≤ Int.log 2 r := (Int.zpow_le_iff_le_log (by norm_num) h0).mp h1
  have hb : Int.log 2 r < e + 1 := (Int.lt_zpow_iff_log_lt (by norm_num) h0).mp h2
  omega

/-- A value whose scaled significand is an integer is a 53-bit dyadic, so
rounding returns it unchanged. -/
theorem roundPos_exact {q : ℚ} {m : ℤ}
    (hm : q * 2 ^ ((52:ℤ) - Int.log 2 q) = (m : ℚ)) : roundPos q = q := by
  simp only [roundPos]
  rw [hm, Int.floor_intCast]
  rw [if_pos (by rw [sub_self]; norm_num)]
  rw [← hm, mul_assoc, ← zpow_add₀ (by norm_num : (2:ℚ) ≠ 0)]
  rw [show (52:ℤ) - Int.log 2 q + (Int.log 2 q - 52) = 0 from by ring]
  rw [zpow_zero, mul_one]

/-- Small positive integers (every byte product that is exact) are exactly
representable in f64: rounding is the identity on them. -/
theorem roundF64_natCast (n : ℕ) (h1 : 1 ≤ n) (h2 : n ≤ 255) :
    roundF64 (n : ℚ) = n := by
  have hn0 : (0:ℚ) < (n:ℚ) := by exact_mod_cast h1
  rw [roundF64, if_neg (not_le.mpr hn0)]
  have hk : Nat.log 2 n ≤ 52 := by
    have h8 : Nat.log 2 n < 8 := Nat.log_lt_of_lt_pow (by omega) (by omega)
    omega
  have hm : (n:ℚ) * 2 ^ ((52:ℤ) - Int.log 2 (n:ℚ))
      = (((n : ℤ) * 2 ^ (52 - Nat.log 2 n) : ℤ) : ℚ) := by
    rw [Int.log_natCast]
    rw [show (52:ℤ) - (Nat.log 2 n : ℤ) = ((52 - Nat.log 2 n : ℕ) : ℤ) from by omega,
      zpow_natCast]
    push_cast
    ring
  exact roundPos_exact hm

/-- Zero is exact. -/
theorem roundF64_zero : roundF64 0 = 0 := by rw [roundF64, if_pos le_rfl]

/-- The f64 nearest to 1/127 (the scale the program computes from MIDI value
1): the significand 2^59/127 = 4539061041759240 + 8/127 rounds down. -/
theorem roundF64_one_div_127 : roundF64 (1/127 : ℚ) = 4539061041759240 / 2 ^ 59 := by
  have hlog : Int.log 2 ((1:ℚ)/127) = -7 :=
    log2_eq_of (by norm_num) (by norm_num) (by norm_num)
  rw [roundF64, if_neg (by norm_num)]
  simp only [roundPos, hlog]
  norm_num

/-- The f64 product 127 * fl(1/127): the exact product is 1 - 2^-56, whose
significand 2^53 - 1/8 rounds up, so the rounded product is exactly 1. -/
theorem roundF64_prod_127 :
    roundF64 ((127 : ℚ) * (4539061041759240 / 2 ^ 59)) = 1 := by
  have hlog : Int.log 2 ((127 : ℚ) * (4539061041759240 / 2 ^ 59)) = -1 :=
    log2_eq_of (by norm_num) (by norm_num) (by norm_num)
  rw [roundF64, if_neg (by norm_num)]
  simp only [roundPos, hlog]
  norm_num

/-- Scale 1 is the identity on byte values in the faithful model too. -/
theorem rescaleByteF64_one (v : Nat) (hv : v ≤ 255) : rescaleByteF64 1 v = v := by
  rw [rescaleByteF64, mul_one]
  rcases Nat.eq_zero_or_pos v with h0 | h1
  · subst h0
    simp [roundF64_zero]
  · rw [roundF64_natCast v h1 hv, Int.floor_natCast, Int.toNat_natCast]
    exact min_eq_left hv

/-- Scale 0 zeroes every channel in the faithful model too. -/
theorem rescaleByteF64_zero (v : Nat) : rescaleByteF64 0 v = 0 := by
  rw [rescaleByteF64, mul_zero, roundF64_zero]
  norm_num

/-- Faithful rescaling at scale 0 yields the all-zero payload. -/
theorem rescale_universeF64_zero (data : List Nat) :
    rescale_universeF64 0 data = List.replicate data.length 0 := by
  refine List.eq_replicate_iff.mpr ⟨by simp [rescale_universeF64], ?_⟩
  intro b hb
  simp only [rescale_universeF64, List.mem_map] at hb
  obtain ⟨v, hv, hb2⟩ := hb
  rw [← hb2, rescaleByteF64_zero]

/-- Faithful rescaling of [200] at scale one half gives [100]: the product
100 is exactly representable, so no rounding effect arises. -/
theorem rescale_universeF64_half_200 : rescale_universeF64 (1/2) [200] = [100] := by
  have h100 : roundF64 (((200 : ℕ) : ℚ) * (1/2)) = 100 := by
    rw [show (((200 : ℕ) : ℚ) * (1/2)) = ((100 : ℕ) : ℚ) from by norm_num]
    rw [roundF64_natCast 100 (by norm_num) (by norm_num)]
    norm_num
  rw [rescale_universeF64, List.map_cons, List.map_nil, rescaleByteF64, h100]
  norm_num
  decide

/-- A successful slice write preserves the buffer length. -/
theorem writeSlice_length {buffer vals out : List Nat} {start : Nat}
    (h : writeSlice buffer start vals = some out) : out.length = buffer.length := by
  unfold writeSlice at h
  split at h
  case isTrue hle =>
    obtain rfl := Option.some.inj h
    simp only [List.length_append, List.length_take, List.length_drop]
    omega
  case isFalse hle => simp at h

/-- A successful slice write can be read back: the written range of the result
holds exactly the written values. -/
theorem writeSlice_readback {buffer vals out : List Nat} {start : Nat}
    (h : writeSlice buffer start vals = some out) :
    (out.drop start).take vals.length = vals := by
  unfold writeSlice at h
  split at h
  case isTrue hle =>
    obtain rfl := Option.some.inj h
    rw [List.append_assoc,
      List.drop_left' (by rw [List.length_take]; exact min_eq_left (by omega)),
      List.take_left]
  case isFalse hle => simp at h

/-- A successful slice read returns at most the requested number of bytes. -/
theorem sliceGet_length_le {input vals : List Nat} {start len : Nat}
    (h : sliceGet input start len = some vals) : vals.length ≤ len := by
  unfold sliceGet at h
  split at h
  case isTrue hle =>
    obtain rfl := Option.some.inj h
    rw [List.length_take]
    exact min_le_left _ _
  case isFalse hle => simp at h

/-- When the whole requested source range fits, a slice read returns exactly
that range. -/
theorem sliceGet_of_fits {input : List Nat} {start len : Nat}
    (h : start + len ≤ input.length) :
    sliceGet input start len = some ((input.drop start).take len) := by
  unfold sliceGet
  rw [if_pos h]

/-- One remap-loop iteration preserves the buffer length. -/
theorem remapStep_length {input buffer out : List Nat} {r : Remapping}
    (h : remapStep input buffer r = some out) : out.length = buffer.length := by
  unfold remapStep at h
  cases hvals : sliceGet input r.start r.length with
  | none =>
    rw [hvals] at h
    obtain rfl := Option.some.inj h
    rfl
  | some vals =>
    rw [hvals] at h
    exact writeSlice_length h

/-- One remap-loop iteration with an in-range destination cannot panic. -/
theorem remapStep_isSome (input : List Nat) {buffer : List Nat} {r : Remapping}
    (hlen : buffer.length = 512) (hdest : r.new_start + r.length ≤ 512) :
    (remapStep input buffer r).isSome := by
  unfold remapStep
  cases hvals : sliceGet input r.start r.length with
  | none => rfl
  | some vals =>
    have hv := sliceGet_length_le hvals
    show (writeSlice buffer r.new_start vals).isSome
    unfold writeSlice
    rw [if_pos (by omega)]
    rfl

/-- A rule whose source range does not fit in the input leaves the buffer
unchanged (the logged-skip branch). -/
theorem remapStep_skip {input buffer : List Nat} {r : Remapping}
    (h : ¬ r.start + r.length ≤ input.length) :
    remapStep input buffer r = some buffer := by
  unfold remapStep sliceGet
  rw [if_neg h]

/-- The remap loop preserves the buffer length. -/
theorem remapGo_length {input : List Nat} (rs : List Remapping) :
    ∀ {buffer out : List Nat}, remapGo input buffer rs = some out →
      out.length = buffer.length := by
  induction rs with
  | nil =>
    intro buffer out h
    obtain rfl := Option.some.inj h
    rfl
  | cons r rest ih =>
    intro buffer out h
    unfold remapGo at h
    cases hstep : remapStep input buffer r with
    | none => rw [hstep] at h; simp at h
    | some b2 =>
      rw [hstep] at h
      exact (ih h).trans (remapStep_length hstep)

/-- The remap loop over a concatenation runs the two parts in sequence. -/
theorem remapGo_append {input : List Nat} (l1 l2 : List Remapping) :
    ∀ buffer, remapGo input buffer (l1 ++ l2)
      = (remapGo input buffer l1).bind (fun b => remapGo input b l2) := by
  induction l1 with
  | nil => intro buffer; rfl
  | cons r rest ih =>
    intro buffer
    simp only [List.cons_append, remapGo]
    cases hstep : remapStep input buffer r with
    | none => rfl
    | some b2 => exact ih b2

/-- The remap loop never panics when every rule has an in-range destination. -/
theorem remapGo_isSome {input : List Nat} (rs : List Remapping) :
    ∀ buffer : List Nat, buffer.length = 512 →
      (∀ r ∈ rs, r.new_start + r.length ≤ 512) →
      (remapGo input buffer rs).isSome := by
  induction rs with
  | nil => intro buffer _ _; rfl
  | cons r rest ih =>
    intro buffer hlen hdest
    unfold remapGo
    cases hstep : remapStep input buffer r with
    | none =>
      have hs := remapStep_isSome input hlen
        (hdest r (List.mem_cons_self r rest))
      rw [hstep] at hs
      simp at hs
    | some b2 =>
      exact ih b2 ((remapStep_length hstep).trans hlen)
        (fun x hx => hdest x (List.mem_cons_of_mem r hx))

/-- Rules whose source range does not fit contribute nothing: the remap loop
agrees with the loop over the fitting rules only. -/
theorem remapGo_filter {input : List Nat} (rs : List Remapping) :
    ∀ buffer : List Nat,
      remapGo input buffer rs
        = remapGo input buffer
            (rs.filter fun r => decide (r.start + r.length ≤ input.length)) := by
  induction rs with
  | nil => intro buffer; rfl
  | cons r rest ih =>
    intro buffer
    by_cases hfit : r.start + r.length ≤ input.length
    · rw [List.filter_cons, if_pos (by simpa using hfit)]
      simp only [remapGo]
      cases hstep : remapStep input buffer r with
      | none => rfl
      | some b2 => exact ih b2
    · rw [List.filter_cons, if_neg (by simpa using hfit)]
      simp only [remapGo, remapStep_skip hfit]
      exact ih buffer

/-- The payload written by the final rule of a successful remap can be read
back from the output at its destination range. -/
theorem remap_last_rule_readback {rs : List Remapping} {r : Remapping}
    {input out : List Nat}
    (hsrc : r.start + r.length ≤ input.length)
    (hrun : remap_universe (rs ++ [r]) input = some out) :
    (out.drop r.new_start).take r.length = (input.drop r.start).take r.length := by
  unfold remap_universe at hrun
  rw [remapGo_append] at hrun
  cases hbuf : remapGo input (List.replicate 512 0) rs with
  | none => rw [hbuf] at hrun; simp at hrun
  | some buf =>
    rw [hbuf] at hrun
    simp only [Option.bind] at hrun
    unfold remapGo at hrun
    cases hstep : remapStep input buf r with
    | none => rw [hstep] at hrun; simp at hrun
    | some b2 =>
      rw [hstep] at hrun
      simp only [remapGo] at hrun
      obtain rfl := Option.some.inj hrun
      unfold remapStep at hstep
      rw [sliceGet_of_fits hsrc] at hstep
      have hlen : ((input.drop r.start).take r.length).length = r.length := by
        rw [List.length_take, List.length_drop]
        omega
      have hread := writeSlice_readback hstep
      rw [hlen] at hread
      exact hread

/- Claim theorems. -/

/-- Claim C1: for the dispatch actor processing the message sequence
ScaleUpdate(0.5), UniverseFrame(U, [200]), ScaleUpdate(1.0),
UniverseFrame(U, [200]), where U is configured with rescale true and no remap
rules, the two emitted frames carry payloads [100] and [200]: each frame is
rescaled with the scale value current when that frame is processed, so earlier
scale updates take effect and later ones do not apply retroactively. -/
theorem claim_C1_in_order_scale_application :
    runDispatch (fun u => if u = 0 then some ⟨true, [], ⟨10, 0, 0, 1⟩⟩ else none) ⟨1⟩
      [.Scale (1/2), .Packet ⟨0, [200]⟩, .Scale 1, .Packet ⟨0, [200]⟩]
    = some (⟨1⟩, [.ArtnetSend ⟨10, 0, 0, 1⟩ PORT ⟨0, [100]⟩,
                  .ArtnetSend ⟨10, 0, 0, 1⟩ PORT ⟨0, [200]⟩]) := by
  simp [runDispatch, step, rescale_universe, rescaleByte_inv_two_200, rescaleByte_one_200]

/-- Claim C2 counterexample: the claim asserts that every byte becomes the
floor of v times the scale, truncating and never rounding, for every scale in
the unit interval. The program instead rounds the f64 product to nearest
before the truncating cast: at the representable scale
fl(1/127) = 4539061041759240 / 2^59 — the exact f64 the program computes from
MIDI value 1 — input byte 127 yields 1 (the product 1 - 2^-56 rounds up to
1.0), while the floor of the exact product is 0. -/
theorem claim_C2_counterexample_rounded_product :
    roundF64 (1/127 : ℚ) = 4539061041759240 / 2 ^ 59 ∧
    (0 : ℚ) ≤ 4539061041759240 / 2 ^ 59 ∧
    (4539061041759240 / 2 ^ 59 : ℚ) ≤ 1 ∧
    rescaleByteF64 (4539061041759240 / 2 ^ 59) 127 = 1 ∧
    Int.toNat ⌊(127 : ℚ) * (4539061041759240 / 2 ^ 59)⌋ = 0 := by
  refine ⟨roundF64_one_div_127, by norm_num, by norm_num, ?_, by norm_num⟩
  rw [rescaleByteF64, show ((127 : ℕ) : ℚ) = (127 : ℚ) from by norm_num,
    roundF64_prod_127]
  norm_num

/-- Claim C2, as amended: for every payload and scale in the unit interval
the program replaces each byte v with the truncation of the correctly rounded
f64 product; this equals the floor of v times the scale whenever the product
is exactly representable — in particular scale one half maps byte 200 to 100,
scale 1 is the identity on all byte values up to 255, and scale 0 zeroes
every channel — but not for every scale, as the counterexample shows. -/
theorem claim_C2_rescale_floor_when_product_exact (s : ℚ) (data : List Nat)
    (_h0 : 0 ≤ s) (h1 : s ≤ 1) :
    (∀ v ∈ data, v ≤ 255 → roundF64 ((v : ℚ) * s) = (v : ℚ) * s →
        rescaleByteF64 s v = Int.toNat ⌊(v : ℚ) * s⌋) ∧
    rescale_universeF64 (1/2) [200] = [100] ∧
    (∀ v : Nat, v ≤ 255 → rescaleByteF64 1 v = v) ∧
    rescale_universeF64 0 data = List.replicate data.length 0 := by
  refine ⟨?_, rescale_universeF64_half_200,
    fun v hv => rescaleByteF64_one v hv, rescale_universeF64_zero data⟩
  intro v _ hv hexact
  rw [rescaleByteF64, hexact]
  exact min_eq_left (le_trans (toNat_floor_le s v h1) hv)

/-- Witness for the amended claim C2 at scale one half on payload [200]. -/
theorem claim_C2_witness :
    (0 : ℚ) ≤ 1/2 ∧ (1/2 : ℚ) ≤ 1 ∧ rescale_universeF64 (1/2) [200] = [100] :=
  ⟨by norm_num, by norm_num,
    (claim_C2_rescale_floor_when_product_exact (1/2) [200]
      (by norm_num) (by norm_num)).2.1⟩

/-- Claim C3: remap allocates a zero-filled 512-byte output and applies the
rules in order: the single rule with source_start 0, length 3, dest_start 10 on
input [1,2,3,4] gives the 512-byte output with bytes 1,2,3 at positions 10-12
and zeros elsewhere; and for the last rule of any successful remap whose source
fits, the output at its destination range holds that rule's source bytes, so a
later rule overwrites earlier writes on overlap (last-applied wins). -/
theorem claim_C3_remap_zero_filled_order_dependent
    (rs : List Remapping) (r : Remapping) (input out : List Nat)
    (hsrc : r.start + r.length ≤ input.length)
    (hrun : remap_universe (rs ++ [r]) input = some out) :
    remap_universe [⟨0, 3, 10⟩] [1, 2, 3, 4]
      = some (List.replicate 10 0 ++ [1, 2, 3] ++ List.replicate 499 0) ∧
    (List.replicate 10 0 ++ [1, 2, 3] ++ (List.replicate 499 0 : List Nat)).length = 512 ∧
    (out.drop r.new_start).take r.length = (input.drop r.start).take r.length :=
  ⟨by decide, by decide, remap_last_rule_readback hsrc hrun⟩

/-- Witness for claim C3: two rules with overlapping destination ranges; the
second rule's bytes win at position 11. -/
theorem claim_C3_witness :
    ((⟨2, 2, 11⟩ : Remapping).start + (⟨2, 2, 11⟩ : Remapping).length
        ≤ ([1, 2, 3, 4] : List Nat).length) ∧
    remap_universe [⟨0, 3, 10⟩] [1, 2, 3, 4]
      = some (List.replicate 10 0 ++ [1, 2, 3] ++ List.replicate 499 0) :=
  ⟨by decide,
    (claim_C3_remap_zero_filled_order_dependent [⟨0, 2, 10⟩] ⟨2, 2, 11⟩ [1, 2, 3, 4]
      (List.replicate 10 0 ++ [1, 3, 4] ++ List.replicate 499 0)
      (by decide) (by decide)).1⟩

/-- Claim C4 counterexample: the rule with source_start 0, length 1,
dest_start 512 passes the source-side check on input [7] but its
destination-side write goes out of bounds, so remap_universe fails (none
models the Rust panic); the claim that the destination-side copy can never go
out of bounds for any configured rule is false, because the configuration is
not validated anywhere in the program. -/
theorem claim_C4_counterexample_dest_write_oob :
    remap_universe [⟨0, 1, 512⟩] [7] = none := by decide

/-- Claim C4 as amended: for every rule whose destination range lies within
the 512-byte protocol maximum, the destination-side write succeeds for every
input payload, because the output buffer is pre-sized to 512. -/
theorem claim_C4_dest_in_bounds_write_succeeds
    (rs : List Remapping) (input : List Nat)
    (hdest : ∀ r ∈ rs, r.new_start + r.length ≤ 512) :
    (remap_universe rs input).isSome :=
  remapGo_isSome rs _ (by simp) hdest

/-- Witness for the amended claim C4 at the largest in-bounds destination. -/
theorem claim_C4_witness :
    (∀ r ∈ ([⟨0, 1, 511⟩] : List Remapping), r.new_start + r.length ≤ 512) ∧
    (remap_universe [⟨0, 1, 511⟩] [7]).isSome :=
  ⟨by decide, claim_C4_dest_in_bounds_write_succeeds [⟨0, 1, 511⟩] [7] (by decide)⟩

/-- Claim C5: a rule whose source_start plus length exceeds the input payload
length is skipped and contributes nothing, while all other rules in the same
call are applied normally: the remap of any rule list equals the remap of the
sublist of rules whose source ranges fit in the input. -/
theorem claim_C5_source_oob_rule_skipped (rs : List Remapping) (input : List Nat) :
    remap_universe rs input
      = remap_universe
          (rs.filter fun r => decide (r.start + r.length ≤ input.length)) input :=
  remapGo_filter rs _

/-- Claim C6: a frame for a universe identifier absent from the action table
produces zero outbound sends and leaves the dispatch state (the current scale)
unchanged. -/
theorem claim_C6_unconfigured_universe_silently_dropped
    (actions : PortAddress → Option UniverseActions) (s : DispatchState)
    (output : Output) (h : actions output.port_address = none) :
    step actions s (.Packet output) = some (s, []) := by
  simp [step, h]

/-- Witness for claim C6 with an empty action table. -/
theorem claim_C6_witness :
    ((fun _ => (none : Option UniverseActions)) ((⟨0, [5]⟩ : Output).port_address)
      = none) ∧
    step (fun _ => none) ⟨1⟩ (.Packet ⟨0, [5]⟩) = some (⟨1⟩, []) :=
  ⟨rfl, claim_C6_unconfigured_universe_silently_dropped (fun _ => none) ⟨1⟩ ⟨0, [5]⟩ rfl⟩

/-- Claim C7: a decoded discovery poll produces exactly one reply datagram,
sent to the poll's source address with the port rewritten to the well-known
port, and the reply carries the configured identifying name (the 8 bytes of
"rescaler" followed by zero padding) in its 18-byte short-name field. -/
theorem claim_C7_poll_reply_identity (addr : SockAddr)
    (actions : PortAddress → Option UniverseActions) (s : DispatchState) :
    receive_artnet addr .Poll = some (.PollResp (set_port addr PORT)) ∧
    (set_port addr PORT).port = PORT ∧
    step actions s (.PollResp (set_port addr PORT))
      = some (s, [.PollReplySend (set_port addr PORT) poll_response]) ∧
    poll_response.short_name.take 8 = strBytes ("rescaler") ∧
    poll_response.short_name.length = 18 :=
  ⟨rfl, rfl, rfl, by decide, by decide⟩

/-- Claim C8: for a control-change event (high nibble 11), if the derived
identifier (channel from the low nibble of byte 0, controller from byte 1)
equals the configured scale control then a Scale action with value mapped by
value over 127 goes to the dispatch queue and nothing goes to the OSC queue;
otherwise the pair goes to the OSC queue and no Scale action is produced.
The routing target is a single sum value, so the two destinations are
mutually exclusive by construction. -/
theorem claim_C8_midi_routing (rc : MidiControl) (b0 b1 b2 : Nat)
    (hcc : b0 >>> 4 = 11) :
    ((({ channel := b0 &&& 15, control := b1 } : MidiControl) = rc →
        handle_midi rc b0 b1 b2
          = some (.dispatch (.Scale (unipolar_from_midi b2)))) ∧
      (({ channel := b0 &&& 15, control := b1 } : MidiControl) ≠ rc →
        handle_midi rc b0 b1 b2
          = some (.oscForward { channel := b0 &&& 15, control := b1 } b2)) ∧
      (b2 ≤ 127 → unipolar_from_midi b2 = (b2 : ℚ) / 127)) := by
  refine ⟨?_, ?_, ?_⟩
  · intro heq
    unfold handle_midi
    rw [hcc]
    simp [decodeEventType, heq]
  · intro hne
    unfold handle_midi
    rw [hcc]
    simp [decodeEventType, hne]
  · intro hle
    unfold unipolar_from_midi
    exact min_eq_left ((div_le_one (by norm_num)).mpr (by exact_mod_cast hle))

/-- Witness for claim C8: status byte 176 (control change on channel 0),
controller 7 matching the configured scale control. -/
theorem claim_C8_witness :
    (176 >>> 4 = 11) ∧
    handle_midi ⟨0, 7⟩ 176 7 64
      = some (.dispatch (.Scale (unipolar_from_midi 64))) :=
  ⟨by decide, (claim_C8_midi_routing ⟨0, 7⟩ 176 7 64 (by decide)).1 (by decide)⟩

/-- Claim C9: a ScaleUpdate message replaces the current scale and has no
other effect: no outbound send of any kind and no other state (the scale is
the only mutable dispatch-actor state). -/
theorem claim_C9_scale_update_pure
    (actions : PortAddress → Option UniverseActions) (s : DispatchState) (v : ℚ) :
    step actions s (.Scale v) = some ({ scale := v }, []) := rfl

/-- Claim C10: for every payload and every scale in the unit interval, rescale
preserves the payload length and is pointwise non-increasing. -/
theorem claim_C10_rescale_length_monotone (s : ℚ) (data : List Nat)
    (_h0 : 0 ≤ s) (h1 : s ≤ 1) :
    (rescale_universe s data).length = data.length ∧
    List.Forall₂ (fun a b => a ≤ b) (rescale_universe s data) data :=
  ⟨List.length_map data (rescaleByte s),
    List.forall₂_map_left_iff.mpr
      (List.forall₂_same.mpr fun v _ => rescaleByte_le s v h1)⟩

/-- Witness for claim C10 at scale one half on payload [200, 3]. -/
theorem claim_C10_witness :
    (0 : ℚ) ≤ 1/2 ∧ (1/2 : ℚ) ≤ 1 ∧
    ((rescale_universe (1/2) [200, 3]).length = ([200, 3] : List Nat).length ∧
      List.Forall₂ (fun a b => a ≤ b) (rescale_universe (1/2) [200, 3]) [200, 3]) :=
  ⟨by norm_num, by norm_num,
    claim_C10_rescale_length_monotone (1/2) [200, 3] (by norm_num) (by norm_num)⟩

end ArtnetRescaler
